import Mathlib

/-!
A verification development for the `starmanager` package of the stars
repository (src/starmanager/starmanager.go): a local mirror of a GitHub
account's starred repositories.  The Go code is shallowly embedded below:
pure fragments become Lean functions, the persistent store becomes an
explicit `List Star` threaded through the operations, goroutines, channels
and the `sync.WaitGroup` of `SaveAllStars` become an explicit scheduled
small-step interpreter, and Go panics become `Option.none`.
-/

namespace StarManager

/-- The starred project saved locally (struct `Star`, starmanager.go lines
40-48).  `PushedAt` (a `time.Time`) is modelled as an integer timestamp
counted in months, the unit the `Cleanup` policy works in; `Stargazers`
(a Go `int`) as `Int`. -/
structure Star where
  pushedAt : Int
  url : String
  language : String
  stargazers : Int
  archived : Bool
  description : String
  topics : List String
deriving DecidableEq

/-- The fields of `github.Repository` that `SaveStarredRepository` consumes
(lines 143-151).  `Language` and `Description` are `*string` in go-github and
absent on some repositories, hence `Option`; `Topics` is a `[]string` whose
nil value ranges and measures exactly like the empty slice, hence a plain
list.  `HTMLURL`, `StargazersCount`, `Archived` and `PushedAt` are
dereferenced unconditionally by the Go code and are plain fields here. -/
structure Repository where
  pushedAt : Int
  htmlURL : String
  language : Option String
  stargazersCount : Int
  archived : Bool
  description : Option String
  topics : List String
deriving DecidableEq

/-- String key / int value pair (struct `KV`, lines 231-234), the unit of the
topic-frequency report.  The count is a `Nat`: it is only ever incremented
from zero. -/
structure KV where
  key : String
  value : Nat
deriving DecidableEq

/-- Model of Go's `strings.ToLower` on the strings this program stores
(`strings.ToLower(lang)`, line 146): character-wise lowering.  Defined
structurally (rather than through `String.toLower`) so that concrete
instances reduce inside the kernel. -/
def toLowerStr (s : String) : String :=
  String.mk (s.toList.map Char.toLower)

/-- Model of Go's `strings.Split(s, "/")` with a one-character separator
(line 320).  Go returns the (possibly empty) substrings between separators,
keeping leading and trailing empties: `Split("", "/") = [""]` and
`Split("/o/r", "/") = ["", "o", "r"]`, which is exactly `List.splitOn` on the
character list. -/
def splitChar (sep : Char) (s : String) : List String :=
  (s.toList.splitOn sep).map (fun cs => String.mk cs)

/-- Modelled from the spec: the Record Store's upsert.  The store (storm,
an external collaborator) keeps `Star` records with `URL` as the unique id
(`storm:"id,index,unique"`, line 42); per the spec, "re-saving a record with
the same `url` overwrites in place (upsert semantics), never duplicates".
`DB.Save` therefore replaces the record holding the same URL when one
exists and appends the record otherwise. -/
def dbSave (db : List Star) (s : Star) : List Star :=
  if db.any (fun x => x.url == s.url) then
    db.map (fun x => if x.url == s.url then s else x)
  else
    db ++ [s]

/-- Modelled from the spec: the Record Store's delete-by-key
(`DB.DeleteStruct`, line 328).  Removes the record with the star's unique
URL key, failing when no such record exists. -/
def dbDelete (db : List Star) (star : Star) : Except String (List Star) :=
  if db.any (fun x => x.url == star.url) then
    Except.ok (db.filter (fun x => x.url != star.url))
  else
    Except.error "not found"

/-- Modelled from the spec: `utils.StringInSlice(a, list)` from the
repository's `utils` package, which is not under src/; per the spec the
topic filter keeps "records whose `topics` sequence contains that exact
value", so this is exact membership of `a` in `list`. -/
def stringInSlice (a : String) (list : List String) : Bool :=
  list.any (fun b => b == a)

/-- The record `SaveStarredRepository` builds from a remote repository
(lines 130-151): a missing (`nil`) `Language` or `Description` is replaced
by the empty string before use, the language is lower-cased, and the
remaining fields are copied through. -/
def mkStar (repo : Repository) : Star :=
  { pushedAt := repo.pushedAt
    url := repo.htmlURL
    language := toLowerStr (repo.language.getD "")
    stargazers := repo.stargazersCount
    archived := repo.archived
    description := repo.description.getD ""
    topics := repo.topics }

/-- `SaveStarredRepository` (lines 127-158) as a store transformation: the
normalized record is upserted into the store.  (The surrounding
`wg.Add(1)`/`defer wg.Done()` bracket is part of the concurrent model
below; a failed save is logged and leaves the remaining records alone.) -/
def saveStarredRepository (db : List Star) (repo : Repository) : List Star :=
  dbSave db (mkStar repo)

/-- The per-record saves spawned for one fetched page (lines 192-194),
as the store state they produce once all of them have run. -/
def savePage (db : List Star) (repos : List Repository) : List Star :=
  repos.foldl saveStarredRepository db

/-- Descending order on stargazer count: the comparator of
`sort.Slice(stars, func(i, j) { return stars[i].Stargazers > stars[j].Stargazers })`
(line 296).  `sort.Slice` is an unstable sort, so ties carry no defined
order; the model sorts with respect to this total relation. -/
def starGE (a b : Star) : Prop :=
  b.stargazers ≤ a.stargazers

instance : DecidableRel starGE :=
  fun a b => inferInstanceAs (Decidable (b.stargazers ≤ a.stargazers))

instance : IsTotal Star starGE :=
  ⟨fun a b => le_total b.stargazers a.stargazers⟩

instance : IsTrans Star starGE :=
  ⟨fun _ _ _ h1 h2 => le_trans h2 h1⟩

/-- Descending order on topic occurrence count: the comparator of
`sort.Slice(results, func(i, j) { return results[i].Value > results[j].Value })`
(lines 256-258); ties carry no defined order. -/
def kvGE (a b : KV) : Prop :=
  b.value ≤ a.value

instance : DecidableRel kvGE :=
  fun a b => inferInstanceAs (Decidable (b.value ≤ a.value))

/-- One topic occurrence added to the accumulated counts
(`topicCounts[topic]++`, line 246).  The Go map is modelled as an
association list keyed by topic, in first-seen order (Go map iteration
order is unspecified; the subsequent sort is what the caller sees). -/
def countTopic (m : List KV) (t : String) : List KV :=
  if m.any (fun kv => kv.key == t) then
    m.map (fun kv => if kv.key == t then ⟨kv.key, kv.value + 1⟩ else kv)
  else
    m ++ [⟨t, 1⟩]

/-- The topic-count accumulation of `GetTopics` (lines 244-248): every
topic of every record counted once. -/
def topicCounts (stars : List Star) : List KV :=
  stars.foldl (fun m star => star.topics.foldl countTopic m) []

/-- `GetTopics` (lines 238-261).  `s.DB.All(&stars)` is called with its
error discarded, so a failed full scan leaves `stars` as the empty list it
was initialized to; the function has no error result at all.  The read is
therefore taken as an argument: either the store's records or the error the
scan would have reported. -/
def getTopics (readResult : Except String (List Star)) : List KV :=
  let stars := match readResult with
    | Except.ok l => l
    | Except.error _ => []
  (topicCounts stars).insertionSort kvGE

/-- The language narrowing of `GetProjects` (lines 268-276): a non-empty
`language` queries the store for records whose stored (lower-cased)
language equals it exactly (`q.Eq("Language", language)`); an empty
`language` reads all records. -/
def langFilter (language : String) (db : List Star) : List Star :=
  if language ≠ "" then db.filter (fun s => s.language == language) else db

/-- The topic narrowing of `GetProjects` (lines 278-288): a non-empty
`topic` keeps the records whose topics contain it. -/
def topicFilter (topic : String) (stars : List Star) : List Star :=
  if topic ≠ "" then stars.filter (fun s => stringInSlice topic s.topics) else stars

/-- The two failure kinds `GetProjects` can report: a store read error
propagated from `Find`/`All` (lines 269-275), or the distinct
`errors.New("No stars matching criteria found")` of line 307. -/
inductive QueryErr where
  | store (e : String)
  | noMatch
deriving DecidableEq

/-- `GetProjects(count, language, topic, random)` (lines 265-308).  The
store read either fails (`storeErr` set, modelling a failing `Find`/`All`)
or yields `db`; the narrowed set is shuffled when `random` is true
(`rand.Shuffle` reseeded from the clock — modelled by the caller-supplied
permutation `shuffle`) and otherwise sorted descending by stargazer count;
a non-empty result is truncated to `count` when longer, and an empty result
is the distinct no-match error. -/
def getProjects (db : List Star) (storeErr : Option String)
    (shuffle : List Star → List Star) (count : Nat)
    (language topic : String) (random : Bool) : Except QueryErr (List Star) :=
  match storeErr with
  | some e => Except.error (QueryErr.store e)
  | none =>
    let stars := langFilter language db
    let stars2 := topicFilter topic stars
    let stars3 := if random then shuffle stars2 else stars2.insertionSort starGE
    if 0 < stars3.length then
      if count < stars3.length then Except.ok (stars3.take count)
      else Except.ok stars3
    else
      Except.error QueryErr.noMatch

/-- The selection guard of `Cleanup` (line 351):
`star.PushedAt.Before(then) || star.Archived == archived`, where
`then = time.Now().AddDate(0, -age, 0)`.  With time counted in months,
`then` is `now - age` and `Before` is strict `<`. -/
def cleanupShouldDelete (now : Int) (age : Nat) (archived : Bool) (star : Star) : Bool :=
  decide (star.pushedAt < now - age) || star.archived == archived

/-- The records `Cleanup(age, archived)` queues for removal (lines
350-366): the guard applied to every record of the full scan, in store
order. -/
def cleanupQueue (now : Int) (age : Nat) (archived : Bool) (db : List Star) : List Star :=
  db.filter (cleanupShouldDelete now age archived)

/-- `RemoveStar` (lines 311-336) over one record.  `url.Parse` (an external
library call) is the supplied `parsePath`, yielding the URL's path
component or a parse error; `Unstar` is the supplied remote call, `none`
meaning success and `some e` the remote error.  The Go code indexes
`splitPath[1]` and `splitPath[2]` with no bounds check (lines 320-322), an
index-out-of-range panic when the split has fewer than three elements —
modelled as `none`.  A normal return `(ok, err)` together with the
resulting store is `some (ok, err, db)`: on unstar failure the store is
returned untouched, and only after remote success is the local delete
attempted. -/
def removeStar (parsePath : String → Except String String)
    (unstar : String → String → Option String)
    (db : List Star) (star : Star) : Option (Bool × Option String × List Star) :=
  match parsePath star.url with
  | Except.error e => some (false, some e, db)
  | Except.ok path =>
    let splitPath := splitChar '/' path
    if 3 ≤ splitPath.length then
      match unstar (splitPath.getD 1 "") (splitPath.getD 2 "") with
      | some e => some (false, some e, db)
      | none =>
        match dbDelete db star with
        | Except.error e => some (false, some e, db)
        | Except.ok db2 => some (true, none, db2)
    else
      none

/-! ## The concurrent sync (`SaveAllStars`, `SaveStarredPage`,
`SaveStarredRepository`)

`SaveAllStars` (lines 200-217) spawns `SaveStarredPage(1, responses, &wg)`,
blocks on `<-responses`, spawns `SaveStarredPage(i, nil, &wg)` for
`i = 2 .. LastPage`, and blocks on `wg.Wait()`.  Each page goroutine (lines
162-197) runs `wg.Add(1)` as its own first action, calls `ListStarred`,
on error sends the error into `errors` — a channel created by `make(chan
error)` two lines earlier, unbuffered and referenced by nobody else, so the
send can never find a receiver and the goroutine blocks forever — otherwise
sends the response into `responses` when that channel was given (capacity
1, line 202), spawns one `SaveStarredRepository` goroutine per returned
repository, and finally runs its deferred `wg.Done()`.  Each record
goroutine (lines 127-158) runs `wg.Add(1)`, upserts, then `wg.Done()`.

The model is a small-step interpreter: a configuration holds the main
goroutine's position, the list of live spawned goroutines (each at its next
atomic action), the WaitGroup counter, the `responses` buffer and the
store; a schedule chooses which goroutine moves.  An enabled step updates
the configuration; a blocked goroutine has no step. -/

/-- The remote gateway consumed by one sync: `ListStarred` for a page
number yields the page's repositories together with the `LastPage` of the
response metadata, or a gateway error.  (Each page is requested at most
once per sync, so a function of the page number captures one run.) -/
structure Gateway where
  listStarred : Nat → Except String (List Repository × Nat)

/-- A live spawned goroutine, at its next atomic action.
`pageStart pageno withResp`: a `SaveStarredPage` goroutine about to run
`wg.Add(1)` (line 163); `withResp` records whether it was given the
`responses` channel (true only for page 1, line 206).
`pageList`: about to call `ListStarred` (line 167) and branch on its error.
`pageStuck pageno e`: blocked forever on `errors <- err` (line 184), the
send on the fresh unbuffered channel nobody receives from.
`pageResp md repos`: about to send the response metadata `md` into
`responses` (line 188), the page's repositories still to spawn.
`pageSpawn repos`: spawning one `SaveStarredRepository` goroutine per
remaining repository (lines 192-194).
`pageDone`: about to run the deferred `wg.Done()` (line 164) and exit.
`saveStart repo`: a `SaveStarredRepository` goroutine about to run
`wg.Add(1)` (line 128).
`saveWrite repo`: about to normalize and upsert (lines 130-151).
`saveDone`: about to run the deferred `wg.Done()` (line 129) and exit. -/
inductive Task where
  | pageStart (pageno : Nat) (withResp : Bool)
  | pageList (pageno : Nat) (withResp : Bool)
  | pageStuck (pageno : Nat) (e : String)
  | pageResp (md : Nat) (repos : List Repository)
  | pageSpawn (repos : List Repository)
  | pageDone
  | saveStart (repo : Repository)
  | saveWrite (repo : Repository)
  | saveDone
deriving DecidableEq

/-- The main goroutine of `SaveAllStars`: about to spawn page 1 (line 206);
blocked on `<-responses` (line 207); in the dispatch loop at page `i` with
the received `LastPage` (lines 210-212); blocked on `wg.Wait()` (line
213); or returned (line 216). -/
inductive MainSt where
  | start
  | awaitResp
  | dispatch (lastPage : Nat) (i : Nat)
  | wait (lastPage : Nat)
  | returned (lastPage : Nat)
deriving DecidableEq

/-- One state of the sync: the main goroutine, the live spawned goroutines,
the WaitGroup counter, the contents of the capacity-1 `responses` buffer,
and the store. -/
structure Config where
  main : MainSt
  tasks : List Task
  counter : Int
  respChan : Option Nat
  db : List Star
deriving DecidableEq

/-- The starting configuration of `SaveAllStars`: counter zero (fresh
`sync.WaitGroup{}`), empty `responses` buffer, no goroutines yet. -/
def initConfig (db : List Star) : Config :=
  { main := MainSt.start, tasks := [], counter := 0, respChan := none, db := db }

/-- The main goroutine's next step, when enabled: spawn page 1 and move to
the receive; receive the buffered response (blocked while the buffer is
empty); spawn page `i` and advance while `i ≤ lastPage`, else fall through
to `wg.Wait()`; pass `wg.Wait()` exactly when the counter is zero. -/
def mainStep (c : Config) : Option Config :=
  match c.main with
  | MainSt.start =>
    some { c with main := MainSt.awaitResp, tasks := c.tasks ++ [Task.pageStart 1 true] }
  | MainSt.awaitResp =>
    match c.respChan with
    | some lp => some { c with main := MainSt.dispatch lp 2, respChan := none }
    | none => none
  | MainSt.dispatch lp i =>
    if i ≤ lp then
      some { c with main := MainSt.dispatch lp (i + 1), tasks := c.tasks ++ [Task.pageStart i false] }
    else
      some { c with main := MainSt.wait lp }
  | MainSt.wait lp =>
    if c.counter = 0 then some { c with main := MainSt.returned lp } else none
  | MainSt.returned _ => none

/-- The step of the goroutine at index `i` of the task list, when enabled.
`wg.Add(1)` raises the counter as the running goroutine's own first action
(lines 128 and 163: the add happens inside the spawned goroutine, not
before the spawn).  A `pageStuck` goroutine has no step: an unbuffered
send with no receiver never proceeds.  A `pageResp` send requires the
capacity-1 buffer to be empty.  Spawns append to the task list; a finished
goroutine lowers the counter and disappears. -/
def stepTask (g : Gateway) (c : Config) (i : Nat) : Option Config :=
  match c.tasks[i]? with
  | none => none
  | some t =>
    match t with
    | Task.pageStart p w =>
      some { c with tasks := c.tasks.set i (Task.pageList p w), counter := c.counter + 1 }
    | Task.pageList p w =>
      match g.listStarred p with
      | Except.error e => some { c with tasks := c.tasks.set i (Task.pageStuck p e) }
      | Except.ok (repos, md) =>
        some { c with tasks := c.tasks.set i (if w then Task.pageResp md repos else Task.pageSpawn repos) }
    | Task.pageStuck _ _ => none
    | Task.pageResp md repos =>
      match c.respChan with
      | none => some { c with respChan := some md, tasks := c.tasks.set i (Task.pageSpawn repos) }
      | some _ => none
    | Task.pageSpawn (r :: rs) =>
      some { c with tasks := (c.tasks.set i (Task.pageSpawn rs)) ++ [Task.saveStart r] }
    | Task.pageSpawn [] =>
      some { c with tasks := c.tasks.set i Task.pageDone }
    | Task.pageDone =>
      some { c with tasks := c.tasks.eraseIdx i, counter := c.counter - 1 }
    | Task.saveStart r =>
      some { c with tasks := c.tasks.set i (Task.saveWrite r), counter := c.counter + 1 }
    | Task.saveWrite r =>
      some { c with tasks := c.tasks.set i Task.saveDone, db := saveStarredRepository c.db r }
    | Task.saveDone =>
      some { c with tasks := c.tasks.eraseIdx i, counter := c.counter - 1 }

/-- A scheduling choice: move the main goroutine, or the spawned goroutine
at index `i`. -/
inductive Choice where
  | main
  | task (i : Nat)
deriving DecidableEq

/-- One scheduled step; `none` when the chosen goroutine is blocked or
absent. -/
def stepOne (g : Gateway) (c : Config) : Choice → Option Config
  | Choice.main => mainStep c
  | Choice.task i => stepTask g c i

/-- Run a schedule: each choice moves the chosen goroutine when it is
enabled and is a stutter otherwise.  Every interleaving of the goroutines'
atomic actions is `run` of some schedule. -/
def run (g : Gateway) (sched : List Choice) (c : Config) : Config :=
  match sched with
  | [] => c
  | ch :: rest =>
    match stepOne g c ch with
    | none => run g rest c
    | some c2 => run g rest c2

/-- The last-page number the main goroutine has learned from page 1's
response metadata, once it has: carried by the dispatch loop, the
`wg.Wait()` and the return. -/
def mainLastPage : MainSt → Option Nat
  | MainSt.dispatch lp _ => some lp
  | MainSt.wait lp => some lp
  | MainSt.returned lp => some lp
  | _ => none

/-- A dispatched page fetch (a `SaveStarredPage` goroutine spawned without
the `responses` channel) that has not yet called the gateway: the pages the
main loop fans out. -/
def dispatchedPage : Task → Option Nat
  | Task.pageStart p false => some p
  | Task.pageList p false => some p
  | _ => none

/-- Page 1's response metadata carries `lp` as its last page. -/
def pageOneMeta (g : Gateway) (lp : Nat) : Prop :=
  ∃ repos, g.listStarred 1 = Except.ok (repos, lp)

/-- What holds of every live goroutine throughout a sync against `g` while
the main goroutine is at `m`: a page goroutine holding the `responses`
channel is page 1; a pending response send carries page 1's metadata; a
dispatched page fetch is a page `p ≥ 2` spawned only after the main
goroutine learned a last page `lp ≥ p` from page 1. -/
def TaskInv (g : Gateway) (m : MainSt) : Task → Prop
  | Task.pageStart p true => p = 1
  | Task.pageStart p false => 2 ≤ p ∧ ∃ lp, mainLastPage m = some lp ∧ p ≤ lp
  | Task.pageList p true => p = 1
  | Task.pageList p false => 2 ≤ p ∧ ∃ lp, mainLastPage m = some lp ∧ p ≤ lp
  | Task.pageResp md _ => pageOneMeta g md
  | _ => True

/-- The sync invariant: any last page the main goroutine holds, and any
metadata sitting in the `responses` buffer, came from page 1's response;
the dispatch loop never runs below page 2; and every live goroutine
satisfies `TaskInv`. -/
def Inv (g : Gateway) (c : Config) : Prop :=
  (∀ lp, mainLastPage c.main = some lp → pageOneMeta g lp)
  ∧ (∀ md, c.respChan = some md → pageOneMeta g md)
  ∧ (∀ lp i, c.main = MainSt.dispatch lp i → 2 ≤ i)
  ∧ (∀ t ∈ c.tasks, TaskInv g c.main t)

/-- What the spec says `GetProjects` returns with `random = false`: the
records whose language equals the given one (all of them when the language
is empty), narrowed to those whose topics contain the given topic when it
is non-empty, in some order that is descending by stargazer count,
truncated to the first `count` when more than `count` match and whole
otherwise. -/
def selectProjectsSpec (db : List Star) (count : Nat) (language topic : String)
    (result : Except QueryErr (List Star)) : Prop :=
  ∃ s : List Star,
    s.Perm (db.filter (fun x =>
      (language == "" || x.language == language)
        && (topic == "" || decide (topic ∈ x.topics))))
    ∧ s.Sorted starGE
    ∧ result = Except.ok (if count < s.length then s.take count else s)

/-! Concrete data for witnesses and counterexamples. -/

/-- A remote repository with every optional field absent. -/
def rBare : Repository := ⟨0, "https://github.com/o/r", none, 1, false, none, []⟩

/-- A one-page gateway: page 1 holds the single repository `rBare` and the
response metadata reports last page 1. -/
def g1 : Gateway := ⟨fun _ => Except.ok ([rBare], 1)⟩

/-- The racy schedule: the page-1 goroutine runs through `wg.Add(1)`,
`ListStarred`, the response send and the spawn of its one record goroutine,
then its deferred `wg.Done()`; the main goroutine receives, finds no page 2
to dispatch, and reaches `wg.Wait()` while the counter is back at zero —
before the spawned record goroutine ever ran its `wg.Add(1)`. -/
def raceSched : List Choice :=
  [Choice.main, Choice.task 0, Choice.task 0, Choice.task 0, Choice.main,
   Choice.main, Choice.task 0, Choice.task 0, Choice.task 0, Choice.main]

/-- Where the racy schedule ends: `SaveAllStars` has returned, the record
goroutine for `rBare` is still pending and the store is still empty. -/
def cBad : Config :=
  { main := MainSt.returned 1, tasks := [Task.saveStart rBare], counter := 0
    respChan := none, db := [] }

/-- A gateway whose `ListStarred` fails on every page. -/
def gErr : Gateway := ⟨fun _ => Except.error "network unreachable"⟩

/-- The four configurations a sync against `gErr` can ever be in: the
page-1 goroutine runs its add, calls the gateway, and blocks forever on
the error send; the main goroutine never gets a response. -/
def ErrReach (c : Config) : Prop :=
  c = initConfig []
  ∨ c = { main := MainSt.awaitResp, tasks := [Task.pageStart 1 true], counter := 0
          respChan := none, db := [] }
  ∨ c = { main := MainSt.awaitResp, tasks := [Task.pageList 1 true], counter := 1
          respChan := none, db := [] }
  ∨ c = { main := MainSt.awaitResp, tasks := [Task.pageStuck 1 "network unreachable"], counter := 1
          respChan := none, db := [] }

/-- A URL parse yielding the well-formed path `/o/r`. -/
def parseOR : String → Except String String := fun _ => Except.ok "/o/r"

/-- A URL parse yielding an empty path. -/
def parseEmpty : String → Except String String := fun _ => Except.ok ""

/-- A remote unstar that fails. -/
def unstarFail : String → String → Option String := fun _ _ => some "remote failure"

/-- A remote unstar that succeeds. -/
def unstarOk : String → String → Option String := fun _ _ => none

/-- A starred record for the removal witnesses. -/
def starOR : Star := ⟨0, "https://github.com/o/r", "go", 1, false, "", []⟩

/-- A record whose last push is 13 months old and which is not archived. -/
def star13 : Star := ⟨-13, "u13", "", 0, false, "", []⟩

/-- Witness store for the selection claims: three `go` records and one
`python` record. -/
def wGo5 : Star := ⟨0, "u5", "go", 5, false, "", []⟩

def wGo3 : Star := ⟨0, "u3", "go", 3, false, "", []⟩

def wGo1 : Star := ⟨0, "u1", "go", 1, false, "", []⟩

def wPy9 : Star := ⟨0, "u9", "python", 9, false, "", []⟩

def dbW : List Star := [wGo1, wPy9, wGo5, wGo3]

/-- A re-save of `starOR`'s URL with fresh field values. -/
def starOR2 : Star := ⟨1, "https://github.com/o/r", "go", 7, false, "d", []⟩

/-- A remote repository whose record shares `starOR`'s URL. -/
def repoOR : Repository := ⟨0, "https://github.com/o/r", none, 7, false, none, []⟩

/-! ## Theorems -/

lemma stringInSlice_mem (a : String) (l : List String) :
    stringInSlice a l = decide (a ∈ l) := by
  by_cases h : a ∈ l
  · have : l.any (fun b => b == a) = true := List.any_eq_true.mpr ⟨a, h, by simp⟩
    simp [stringInSlice, this, h]
  · have : l.any (fun b => b == a) = false := by
      rw [List.any_eq_false]
      intro x hx
      simp only [beq_iff_eq]
      rintro rfl
      exact h hx
    simp [stringInSlice, this, h]

/-- Claim C1: when the remote unstar fails during `RemoveStar`, the
function returns `(false, the remote error)` and the store is exactly the
store it was given: the local delete is attempted only after the remote
unstar succeeds. -/
theorem removeStar_remote_failure_keeps_local
    (parsePath : String → Except String String)
    (unstar : String → String → Option String) (db : List Star) (star : Star)
    (p e : String)
    (hp : parsePath star.url = Except.ok p)
    (hlen : 3 ≤ (splitChar '/' p).length)
    (hun : unstar ((splitChar '/' p).getD 1 "") ((splitChar '/' p).getD 2 "") = some e) :
    removeStar parsePath unstar db star = some (false, some e, db) := by
  simp only [removeStar, hp]
  rw [if_pos hlen, hun]

/-- Witness for C1 at a concrete record, store and failing remote call. -/
theorem removeStar_remote_failure_witness :
    removeStar parseOR unstarFail [starOR] starOR
      = some (false, some "remote failure", [starOR]) :=
  removeStar_remote_failure_keeps_local parseOR unstarFail [starOR] starOR
    "/o/r" "remote failure" rfl (by decide) rfl

/-- Claim C9: `RemoveStar` panics (modelled `none`) exactly when the parsed
URL path splits into fewer than three parts on `/` — that is, when the path
has no owner and repository segments — and returns normally otherwise. -/
theorem removeStar_panics_short_path
    (parsePath : String → Except String String)
    (unstar : String → String → Option String) (db : List Star) (star : Star)
    (p : String)
    (hp : parsePath star.url = Except.ok p) :
    ((splitChar '/' p).length < 3 → removeStar parsePath unstar db star = none)
    ∧ (3 ≤ (splitChar '/' p).length → removeStar parsePath unstar db star ≠ none) := by
  constructor
  · intro hlt
    simp only [removeStar, hp]
    rw [if_neg (by omega : ¬ 3 ≤ (splitChar '/' p).length)]
  · intro hge
    simp only [removeStar, hp]
    rw [if_pos hge]
    cases h1 : unstar ((splitChar '/' p).getD 1 "") ((splitChar '/' p).getD 2 "") with
    | some e => simp
    | none =>
      cases h2 : dbDelete db star with
      | error e => simp
      | ok db2 => simp

/-- Witness for C9: an empty parsed path panics; the two-segment path
`/o/r` does not. -/
theorem removeStar_panics_short_path_witness :
    removeStar parseEmpty unstarOk [] starOR = none
    ∧ removeStar parseOR unstarOk [starOR] starOR ≠ none :=
  ⟨(removeStar_panics_short_path parseEmpty unstarOk [] starOR "" rfl).1 (by decide),
   (removeStar_panics_short_path parseOR unstarOk [starOR] starOR "/o/r" rfl).2 (by decide)⟩

/-- Claim C4: `Cleanup` queues a record for removal exactly when its last
push is older than `now` minus `age` months OR its archived flag equals the
filter — an inclusive OR — and in particular a 13-month-old unarchived
record is selected by `Cleanup(12, true)`. -/
theorem cleanup_or_predicate (now : Int) (age : Nat) (archivedFilter : Bool)
    (db : List Star) (star : Star) :
    (star ∈ cleanupQueue now age archivedFilter db ↔
      star ∈ db ∧ (star.pushedAt < now - age ∨ star.archived = archivedFilter))
    ∧ cleanupShouldDelete 0 12 true star13 = true := by
  constructor
  · simp [cleanupQueue, cleanupShouldDelete, List.mem_filter]
  · decide

/-- Claim C7: the record `SaveStarredRepository` saves lower-cases the
language, turns an absent language or description into the empty string,
and passes the topic list through (a nil slice being the empty list), so
an absent optional field never reaches the store unset. -/
theorem saveStarredRepository_normalizes (repo : Repository) :
    (mkStar repo).language = toLowerStr (repo.language.getD "")
    ∧ (mkStar repo).description = repo.description.getD ""
    ∧ (mkStar repo).topics = repo.topics
    ∧ (repo.language = none → (mkStar repo).language = "")
    ∧ (repo.description = none → (mkStar repo).description = "") := by
  refine ⟨rfl, rfl, rfl, ?_, ?_⟩
  · intro h
    show toLowerStr (repo.language.getD "") = ""
    rw [h]
    decide
  · intro h
    show repo.description.getD "" = ""
    rw [h]
    rfl

/-- Claim C10: `GetTopics` discards the store scan's error, so a failed
read is indistinguishable from an empty store: it yields the empty
frequency list, never an error. -/
theorem getTopics_ignores_store_error (e : String) :
    getTopics (Except.error e) = getTopics (Except.ok []) ∧ getTopics (Except.error e) = [] :=
  ⟨rfl, rfl⟩

/-- Claim C5: when the language and topic narrowing leaves nothing,
`GetProjects` fails with the no-match error; a store read failure is the
distinct store error; and the empty narrowed set is never returned as a
successful empty list. -/
theorem getProjects_no_match_error (db : List Star) (shuffle : List Star → List Star)
    (count : Nat) (language topic : String) (random : Bool) (e : String)
    (hsh : ∀ l, (shuffle l).Perm l)
    (hempty : topicFilter topic (langFilter language db) = []) :
    getProjects db none shuffle count language topic random = Except.error QueryErr.noMatch
    ∧ getProjects db (some e) shuffle count language topic random
        = Except.error (QueryErr.store e)
    ∧ QueryErr.noMatch ≠ QueryErr.store e
    ∧ ∀ l, getProjects db none shuffle count language topic random ≠ Except.ok l := by
  have hnil : shuffle ([] : List Star) = [] := (hsh []).eq_nil
  have hmain : getProjects db none shuffle count language topic random
      = Except.error QueryErr.noMatch := by
    unfold getProjects
    cases random
    · simp [hempty]
    · simp [hempty, hnil]
  exact ⟨hmain, rfl, by simp, fun l h => by rw [hmain] at h; exact Except.noConfusion h⟩

/-- Witness for C5: an empty store and a topic matching nothing yield the
no-match error, distinct from a store error. -/
theorem getProjects_no_match_error_witness :
    getProjects ([] : List Star) none id 5 "" "x" false = Except.error QueryErr.noMatch
    ∧ QueryErr.noMatch ≠ QueryErr.store "io" :=
  ⟨(getProjects_no_match_error [] id 5 "" "x" false "io"
      (fun l => List.Perm.refl l) (by decide)).1,
   (getProjects_no_match_error [] id 5 "" "x" false "io"
      (fun l => List.Perm.refl l) (by decide)).2.2.1⟩

lemma langFilter_empty (db : List Star) : langFilter "" db = db := by
  simp [langFilter]

lemma langFilter_ne (language : String) (db : List Star) (h : language ≠ "") :
    langFilter language db = db.filter (fun s => s.language == language) := by
  simp [langFilter, h]

lemma topicFilter_empty (stars : List Star) : topicFilter "" stars = stars := by
  simp [topicFilter]

lemma topicFilter_ne (topic : String) (stars : List Star) (h : topic ≠ "") :
    topicFilter topic stars = stars.filter (fun s => stringInSlice topic s.topics) := by
  simp [topicFilter, h]

lemma narrow_eq_filter (language topic : String) (db : List Star) :
    topicFilter topic (langFilter language db)
      = db.filter (fun x =>
          (language == "" || x.language == language)
            && (topic == "" || decide (topic ∈ x.topics))) := by
  by_cases hl : language = ""
  · subst hl
    by_cases ht : topic = ""
    · subst ht
      rw [langFilter_empty, topicFilter_empty]
      simp
    · have hft : (topic == "") = false := beq_eq_false_iff_ne.mpr ht
      rw [langFilter_empty, topicFilter_ne topic db ht]
      simp only [beq_self_eq_true, Bool.true_or, Bool.true_and, hft, Bool.false_or]
      exact List.filter_congr (fun x _ => stringInSlice_mem topic x.topics)
  · have hfl : (language == "") = false := beq_eq_false_iff_ne.mpr hl
    by_cases ht : topic = ""
    · subst ht
      rw [langFilter_ne language db hl, topicFilter_empty]
      simp only [hfl, Bool.false_or, beq_self_eq_true, Bool.true_or, Bool.and_true]
    · have hft : (topic == "") = false := beq_eq_false_iff_ne.mpr ht
      rw [langFilter_ne language db hl, topicFilter_ne topic _ ht, List.filter_filter]
      simp only [hfl, Bool.false_or, hft]
      exact List.filter_congr (fun x _ => by rw [stringInSlice_mem, Bool.and_comm])

/-- Claim C6: with `random = false`, `GetProjects` returns exactly the
records passing the language and topic narrowing, in descending stargazer
order, truncated to `count` when more than `count` match and whole
otherwise (the non-empty case; an empty narrowing is the no-match error of
C5). -/
theorem getProjects_ranked_selection (db : List Star) (shuffle : List Star → List Star)
    (count : Nat) (language topic : String)
    (h : topicFilter topic (langFilter language db) ≠ []) :
    selectProjectsSpec db count language topic
      (getProjects db none shuffle count language topic false) := by
  refine ⟨(topicFilter topic (langFilter language db)).insertionSort starGE, ?_, ?_, ?_⟩
  · rw [← narrow_eq_filter]
    exact List.perm_insertionSort starGE _
  · exact List.sorted_insertionSort starGE _
  · have hlen : 0 < ((topicFilter topic (langFilter language db)).insertionSort starGE).length := by
      rw [(List.perm_insertionSort starGE _).length_eq]
      exact List.length_pos.mpr h
    have hdef : getProjects db none shuffle count language topic false
        = (if 0 < ((topicFilter topic (langFilter language db)).insertionSort starGE).length then
            (if count < ((topicFilter topic (langFilter language db)).insertionSort starGE).length then
              Except.ok (((topicFilter topic (langFilter language db)).insertionSort starGE).take count)
            else Except.ok ((topicFilter topic (langFilter language db)).insertionSort starGE))
          else Except.error QueryErr.noMatch) := rfl
    rw [hdef, if_pos hlen, apply_ite Except.ok]

/-- Witness for C6: on a store of three `go` records and one `python`
record, asking for five `go` projects returns the three `go` records in
descending stargazer order. -/
theorem getProjects_ranked_selection_witness :
    selectProjectsSpec dbW 5 "go" "" (getProjects dbW none id 5 "go" "" false) :=
  getProjects_ranked_selection dbW id 5 "go" "" (by decide)

lemma any_url_iff (db : List Star) (u : String) :
    (db.any (fun x => x.url == u) = true) ↔ u ∈ db.map Star.url := by
  rw [List.any_eq_true]
  constructor
  · rintro ⟨x, hx, hbeq⟩
    exact List.mem_map.mpr ⟨x, hx, beq_iff_eq.mp hbeq⟩
  · rintro hm
    obtain ⟨x, hx, hxe⟩ := List.mem_map.mp hm
    exact ⟨x, hx, beq_iff_eq.mpr hxe⟩

lemma dbSave_urls_of_mem (db : List Star) (s : Star) (h : s.url ∈ db.map Star.url) :
    (dbSave db s).map Star.url = db.map Star.url := by
  unfold dbSave
  rw [if_pos ((any_url_iff db s.url).mpr h), List.map_map]
  refine List.map_congr_left (fun x hx => ?_)
  cases hxe : (x.url == s.url) with
  | true =>
    simp only [Function.comp_apply, hxe, if_true]
    exact (beq_iff_eq.mp hxe).symm
  | false =>
    have hne : ¬ ((x.url == s.url) = true) := by simp [hxe]
    simp only [Function.comp_apply, if_neg hne]

lemma dbSave_urls_of_not_mem (db : List Star) (s : Star) (h : s.url ∉ db.map Star.url) :
    (dbSave db s).map Star.url = db.map Star.url ++ [s.url] := by
  unfold dbSave
  rw [if_neg (fun hc => h ((any_url_iff db s.url).mp hc))]
  simp

lemma mem_urls_dbSave (db : List Star) (s : Star) (u : String)
    (h : u ∈ db.map Star.url) : u ∈ (dbSave db s).map Star.url := by
  by_cases hm : s.url ∈ db.map Star.url
  · rw [dbSave_urls_of_mem db s hm]; exact h
  · rw [dbSave_urls_of_not_mem db s hm]; exact List.mem_append_left _ h

lemma self_mem_urls_dbSave (db : List Star) (s : Star) :
    s.url ∈ (dbSave db s).map Star.url := by
  by_cases hm : s.url ∈ db.map Star.url
  · rw [dbSave_urls_of_mem db s hm]; exact hm
  · rw [dbSave_urls_of_not_mem db s hm]; exact List.mem_append_right _ (by simp)

lemma nodup_urls_dbSave (db : List Star) (s : Star)
    (h : (db.map Star.url).Nodup) : ((dbSave db s).map Star.url).Nodup := by
  by_cases hm : s.url ∈ db.map Star.url
  · rw [dbSave_urls_of_mem db s hm]; exact h
  · rw [dbSave_urls_of_not_mem db s hm, List.nodup_append]
    refine ⟨h, List.nodup_singleton _, ?_⟩
    intro a ha hb
    rw [List.mem_singleton] at hb
    exact hm (hb ▸ ha)

lemma urls_savePage_of_mem (db : List Star) (rs : List Repository)
    (h : ∀ r ∈ rs, (mkStar r).url ∈ db.map Star.url) :
    (savePage db rs).map Star.url = db.map Star.url := by
  induction rs generalizing db with
  | nil => rfl
  | cons r rs ih =>
    have hr := h r (List.mem_cons_self r rs)
    have hstep : (dbSave db (mkStar r)).map Star.url = db.map Star.url :=
      dbSave_urls_of_mem _ _ hr
    calc (savePage db (r :: rs)).map Star.url
        = (savePage (dbSave db (mkStar r)) rs).map Star.url := rfl
      _ = (dbSave db (mkStar r)).map Star.url :=
          ih _ (fun r2 h2 => by rw [hstep]; exact h r2 (List.mem_cons_of_mem _ h2))
      _ = db.map Star.url := hstep

lemma mem_urls_savePage (db : List Star) (rs : List Repository) (u : String)
    (h : u ∈ db.map Star.url) : u ∈ (savePage db rs).map Star.url := by
  induction rs generalizing db with
  | nil => exact h
  | cons r rs ih => exact ih _ (mem_urls_dbSave _ _ _ h)

lemma mem_urls_savePage_self (db : List Star) (rs : List Repository) (r : Repository)
    (h : r ∈ rs) : (mkStar r).url ∈ (savePage db rs).map Star.url := by
  induction rs generalizing db with
  | nil => cases h
  | cons r2 rs ih =>
    rcases List.mem_cons.mp h with rfl | h2
    · show (mkStar r).url ∈ (savePage (dbSave db (mkStar r)) rs).map Star.url
      exact mem_urls_savePage _ _ _ (self_mem_urls_dbSave db (mkStar r))
    · exact ih _ h2

lemma nodup_urls_savePage (db : List Star) (rs : List Repository)
    (h : (db.map Star.url).Nodup) : ((savePage db rs).map Star.url).Nodup := by
  induction rs generalizing db with
  | nil => exact h
  | cons r rs ih => exact ih _ (nodup_urls_dbSave _ _ h)

lemma find?_overwrite (db : List Star) (s : Star) (h : s.url ∈ db.map Star.url) :
    (db.map (fun x => if x.url == s.url then s else x)).find? (fun x => x.url == s.url)
      = some s := by
  induction db with
  | nil => simp at h
  | cons x db ih =>
    by_cases hx : (x.url == s.url) = true
    · simp [List.find?, hx]
    · have hs : s.url ∈ db.map Star.url := by
        rcases (by simpa using h : s.url = x.url ∨ s.url ∈ db.map Star.url) with he | hm
        · exact absurd (beq_iff_eq.mpr he.symm) (by simpa using hx)
        · exact hm
      simpa [List.find?, hx] using ih hs

lemma dbSave_find? (db : List Star) (s : Star) (h : s.url ∈ db.map Star.url) :
    (dbSave db s).find? (fun x => x.url == s.url) = some s := by
  unfold dbSave
  rw [if_pos ((any_url_iff db s.url).mpr h)]
  exact find?_overwrite db s h

/-- Claim C8: saving is an upsert keyed on the URL: re-saving an existing
URL changes no key and no count and stores the new record under that URL,
URL uniqueness is preserved, and saving the same page twice leaves the
store's size exactly what one save produced. -/
theorem star_upsert_idempotent (db : List Star) (s : Star) (rs : List Repository)
    (hmem : s.url ∈ db.map Star.url)
    (hnd : (db.map Star.url).Nodup) :
    (dbSave db s).map Star.url = db.map Star.url
    ∧ (dbSave db s).length = db.length
    ∧ (dbSave db s).find? (fun x => x.url == s.url) = some s
    ∧ ((dbSave db s).map Star.url).Nodup
    ∧ ((savePage db rs).map Star.url).Nodup
    ∧ (savePage (savePage db rs) rs).length = (savePage db rs).length := by
  have hu := dbSave_urls_of_mem db s hmem
  refine ⟨hu, ?_, dbSave_find? db s hmem, nodup_urls_dbSave db s hnd,
    nodup_urls_savePage db rs hnd, ?_⟩
  · have := congrArg List.length hu
    simpa [List.length_map] using this
  · have h2 : (savePage (savePage db rs) rs).map Star.url = (savePage db rs).map Star.url :=
      urls_savePage_of_mem _ _ (fun r hr => mem_urls_savePage_self _ _ _ hr)
    have := congrArg List.length h2
    simpa [List.length_map] using this

/-- Witness for C8: re-saving `starOR`'s URL keeps the store at one record,
and re-saving a whole page is size-stable. -/
theorem star_upsert_idempotent_witness :
    (dbSave [starOR] starOR2).length = 1
    ∧ (savePage (savePage [starOR] [repoOR]) [repoOR]).length
        = (savePage [starOR] [repoOR]).length :=
  ⟨(star_upsert_idempotent [starOR] starOR2 [repoOR] (by decide) (by decide)).2.1,
   (star_upsert_idempotent [starOR] starOR2 [repoOR] (by decide) (by decide)).2.2.2.2.2⟩

/-! ### The concurrent sync -/

lemma run_preserves (g : Gateway) (P : Config → Prop)
    (hstep : ∀ c ch c2, P c → stepOne g c ch = some c2 → P c2) :
    ∀ (sched : List Choice) (c : Config), P c → P (run g sched c) := by
  intro sched
  induction sched with
  | nil => exact fun c hc => hc
  | cons ch rest ih =>
    intro c hc
    unfold run
    cases h : stepOne g c ch with
    | none => exact ih c hc
    | some c2 => exact ih c2 (hstep c ch c2 hc h)

lemma taskInv_mono (g : Gateway) (m m2 : MainSt) (t : Task)
    (hm : ∀ lp, mainLastPage m = some lp → mainLastPage m2 = some lp)
    (ht : TaskInv g m t) : TaskInv g m2 t := by
  cases t with
  | pageStart p w =>
    cases w
    · obtain ⟨hp, lp, hlp, hle⟩ := ht
      exact ⟨hp, lp, hm lp hlp, hle⟩
    · exact ht
  | pageList p w =>
    cases w
    · obtain ⟨hp, lp, hlp, hle⟩ := ht
      exact ⟨hp, lp, hm lp hlp, hle⟩
    · exact ht
  | pageResp md repos => exact ht
  | pageStuck p e => trivial
  | pageSpawn repos => trivial
  | pageDone => trivial
  | saveStart r => trivial
  | saveWrite r => trivial
  | saveDone => trivial

lemma inv_mainStep (g : Gateway) (c c2 : Config) (hInv : Inv g c)
    (h : mainStep c = some c2) : Inv g c2 := by
  obtain ⟨h1, h2, h3, h4⟩ := hInv
  unfold mainStep at h
  split at h
  · -- c.main = start: spawn page 1, move to the receive
    rename_i heq
    injection h with h
    subst h
    refine ⟨?_, h2, ?_, ?_⟩
    · intro lp hlp
      simp [mainLastPage] at hlp
    · intro lp i hd
      simp at hd
    · intro t2 ht2
      rcases List.mem_append.mp ht2 with hold | hnew
      · refine taskInv_mono g c.main MainSt.awaitResp t2 ?_ (h4 t2 hold)
        rw [heq]
        intro lp hlp
        simp [mainLastPage] at hlp
      · rw [List.mem_singleton] at hnew
        subst hnew
        rfl
  · -- c.main = awaitResp: receive the buffered response
    rename_i heq
    split at h
    · rename_i lp heq2
      injection h with h
      subst h
      refine ⟨?_, ?_, ?_, ?_⟩
      · intro lp2 hlp2
        simp only [mainLastPage, Option.some.injEq] at hlp2
        subst hlp2
        exact h2 _ heq2
      · intro md hmd
        simp at hmd
      · intro lp2 i hd
        injection hd with he1 he2
        omega
      · intro t2 ht2
        refine taskInv_mono g c.main (MainSt.dispatch lp 2) t2 ?_ (h4 t2 ht2)
        rw [heq]
        intro lp2 hlp2
        simp [mainLastPage] at hlp2
    · simp at h
  · -- c.main = dispatch lp i: spawn page i or fall through to the wait
    rename_i lp i heq
    split at h
    · rename_i hle
      injection h with h
      subst h
      refine ⟨?_, h2, ?_, ?_⟩
      · intro lp2 hlp2
        apply h1
        rw [heq]
        simpa [mainLastPage] using hlp2
      · intro lp2 i2 hd
        injection hd with he1 he2
        have h2i : 2 ≤ i := h3 lp i heq
        omega
      · intro t2 ht2
        rcases List.mem_append.mp ht2 with hold | hnew
        · refine taskInv_mono g c.main (MainSt.dispatch lp (i + 1)) t2 ?_ (h4 t2 hold)
          rw [heq]
          intro lp2 hlp2
          simpa [mainLastPage] using hlp2
        · rw [List.mem_singleton] at hnew
          subst hnew
          exact ⟨h3 lp i heq, lp, rfl, hle⟩
    · rename_i hle
      injection h with h
      subst h
      refine ⟨?_, h2, ?_, ?_⟩
      · intro lp2 hlp2
        apply h1
        rw [heq]
        simpa [mainLastPage] using hlp2
      · intro lp2 i2 hd
        simp at hd
      · intro t2 ht2
        refine taskInv_mono g c.main (MainSt.wait lp) t2 ?_ (h4 t2 ht2)
        rw [heq]
        intro lp2 hlp2
        simpa [mainLastPage] using hlp2
  · -- c.main = wait lp: pass the wait when the counter is zero
    rename_i lp heq
    split at h
    · rename_i hz
      injection h with h
      subst h
      refine ⟨?_, h2, ?_, ?_⟩
      · intro lp2 hlp2
        apply h1
        rw [heq]
        simpa [mainLastPage] using hlp2
      · intro lp2 i2 hd
        simp at hd
      · intro t2 ht2
        refine taskInv_mono g c.main (MainSt.returned lp) t2 ?_ (h4 t2 ht2)
        rw [heq]
        intro lp2 hlp2
        simpa [mainLastPage] using hlp2
    · simp at h
  · -- c.main = returned: no step
    simp at h

lemma inv_stepTask (g : Gateway) (c c2 : Config) (i : Nat) (hInv : Inv g c)
    (h : stepTask g c i = some c2) : Inv g c2 := by
  obtain ⟨h1, h2, h3, h4⟩ := hInv
  unfold stepTask at h
  split at h
  · simp at h
  · rename_i t heq
    have htm : t ∈ c.tasks := List.getElem?_mem heq
    split at h
  -- wg.Add(1) of a page goroutine
    · rename_i p w
      injection h with h
      subst h
      refine ⟨h1, h2, h3, ?_⟩
      intro t2 ht2
      rcases List.mem_or_eq_of_mem_set ht2 with hold | rfl
      · exact h4 t2 hold
      · have hti := h4 _ htm
        cases w
        · exact hti
        · exact hti
  -- the ListStarred call of a page goroutine
    · rename_i p w
      split at h
      · rename_i e hg
        injection h with h
        subst h
        refine ⟨h1, h2, h3, ?_⟩
        intro t2 ht2
        rcases List.mem_or_eq_of_mem_set ht2 with hold | rfl
        · exact h4 t2 hold
        · trivial
      · rename_i repos md hg
        injection h with h
        subst h
        refine ⟨h1, h2, h3, ?_⟩
        intro t2 ht2
        rcases List.mem_or_eq_of_mem_set ht2 with hold | rfl
        · exact h4 t2 hold
        · cases w
          · trivial
          · have hp1 : p = 1 := h4 _ htm
            subst hp1
            exact ⟨repos, hg⟩
  -- a goroutine blocked on the error send never steps
    · simp at h
  -- the response send of the page-1 goroutine
    · rename_i md repos
      split at h
      · rename_i hr
        injection h with h
        subst h
        refine ⟨h1, ?_, h3, ?_⟩
        · intro md2 hmd2
          injection hmd2 with hmd2
          subst hmd2
          exact h4 _ htm
        · intro t2 ht2
          rcases List.mem_or_eq_of_mem_set ht2 with hold | rfl
          · exact h4 t2 hold
          · trivial
      · simp at h
  -- spawning one record goroutine
    · rename_i r rs
      injection h with h
      subst h
      refine ⟨h1, h2, h3, ?_⟩
      intro t2 ht2
      rcases List.mem_append.mp ht2 with hset | hnew
      · rcases List.mem_or_eq_of_mem_set hset with hold | rfl
        · exact h4 t2 hold
        · trivial
      · rw [List.mem_singleton] at hnew
        subst hnew
        trivial
  -- the spawn loop finished
    · injection h with h
      subst h
      refine ⟨h1, h2, h3, ?_⟩
      intro t2 ht2
      rcases List.mem_or_eq_of_mem_set ht2 with hold | rfl
      · exact h4 t2 hold
      · trivial
  -- wg.Done() of a page goroutine
    · injection h with h
      subst h
      exact ⟨h1, h2, h3, fun t2 ht2 => h4 t2 (List.mem_of_mem_eraseIdx ht2)⟩
  -- wg.Add(1) of a record goroutine
    · rename_i r
      injection h with h
      subst h
      refine ⟨h1, h2, h3, ?_⟩
      intro t2 ht2
      rcases List.mem_or_eq_of_mem_set ht2 with hold | rfl
      · exact h4 t2 hold
      · trivial
  -- the upsert of a record goroutine
    · rename_i r
      injection h with h
      subst h
      refine ⟨h1, h2, h3, ?_⟩
      intro t2 ht2
      rcases List.mem_or_eq_of_mem_set ht2 with hold | rfl
      · exact h4 t2 hold
      · trivial
  -- wg.Done() of a record goroutine
    · injection h with h
      subst h
      exact ⟨h1, h2, h3, fun t2 ht2 => h4 t2 (List.mem_of_mem_eraseIdx ht2)⟩

lemma inv_stepOne (g : Gateway) (c c2 : Config) (ch : Choice) (hInv : Inv g c)
    (h : stepOne g c ch = some c2) : Inv g c2 := by
  cases ch with
  | main => exact inv_mainStep g c c2 hInv h
  | task i => exact inv_stepTask g c c2 i hInv h

lemma inv_initConfig (g : Gateway) (db : List Star) : Inv g (initConfig db) := by
  refine ⟨?_, ?_, ?_, ?_⟩
  · intro lp hlp
    simp [initConfig, mainLastPage] at hlp
  · intro md hmd
    simp [initConfig] at hmd
  · intro lp i hd
    simp [initConfig] at hd
  · intro t htm
    simp [initConfig] at htm

lemma inv_run (g : Gateway) (sched : List Choice) (db : List Star) :
    Inv g (run g sched (initConfig db)) :=
  run_preserves g (Inv g) (fun c ch c2 hc h => inv_stepOne g c c2 ch hc h)
    sched (initConfig db) (inv_initConfig g db)

/-- Claim C3 (amended): in every execution of `SaveAllStars`, the main
goroutine enters the dispatch loop only with the last-page count taken from
page 1's response metadata, and every dispatched fetch of a page `p` is a
page `2 ≤ p ≤ lastPage` spawned only after that count was received — page 1
first, count before fan-out.  (That it returns only after all work
completed is exactly what the counterexample refutes.) -/
theorem saveAllStars_page_one_first (g : Gateway) (sched : List Choice) (db : List Star) :
    (∀ lp i, (run g sched (initConfig db)).main = MainSt.dispatch lp i →
      2 ≤ i ∧ ∃ repos, g.listStarred 1 = Except.ok (repos, lp))
    ∧ (∀ p, (Task.pageStart p false ∈ (run g sched (initConfig db)).tasks
          ∨ Task.pageList p false ∈ (run g sched (initConfig db)).tasks) →
        2 ≤ p ∧ ∃ lp repos, mainLastPage (run g sched (initConfig db)).main = some lp
          ∧ p ≤ lp ∧ g.listStarred 1 = Except.ok (repos, lp)) := by
  obtain ⟨h1, h2, h3, h4⟩ := inv_run g sched db
  constructor
  · intro lp i hm
    refine ⟨h3 lp i hm, h1 lp ?_⟩
    rw [hm]
    rfl
  · intro p hp
    have hti : 2 ≤ p ∧ ∃ lp, mainLastPage (run g sched (initConfig db)).main = some lp ∧ p ≤ lp := by
      rcases hp with hp | hp
      · exact h4 _ hp
      · exact h4 _ hp
    obtain ⟨hp2, lp, hlp, hle⟩ := hti
    obtain ⟨repos, hls⟩ := h1 lp hlp
    exact ⟨hp2, lp, repos, hlp, hle, hls⟩

/-- Counterexample to claim C3 as stated: under the schedule `raceSched`
— a legal interleaving, possible because every `wg.Add(1)` runs inside the
spawned goroutine — `SaveAllStars` over the one-page, one-repository
gateway `g1` returns while the upsert goroutine for that repository is
still pending and the store is still empty, which is not the store a
completed sync produces. -/
theorem saveAllStars_early_return_counterexample :
    run g1 raceSched (initConfig []) = cBad
    ∧ cBad.main = MainSt.returned 1
    ∧ cBad.tasks = [Task.saveStart rBare]
    ∧ cBad.db = []
    ∧ savePage [] [rBare] ≠ [] := by
  refine ⟨by decide, rfl, rfl, rfl, by decide⟩

lemma errReach_step (c c2 : Config) (ch : Choice) (hc : ErrReach c)
    (h : stepOne gErr c ch = some c2) : ErrReach c2 := by
  rcases hc with rfl | rfl | rfl | rfl
  · cases ch with
    | main =>
      simp only [stepOne, mainStep, initConfig] at h
      injection h with h
      subst h
      exact Or.inr (Or.inl (by decide))
    | task i =>
      simp [stepOne, stepTask, initConfig] at h
  · cases ch with
    | main =>
      simp [stepOne, mainStep] at h
    | task i =>
      cases i with
      | zero =>
        simp only [stepOne, stepTask, List.getElem?_cons_zero] at h
        injection h with h
        subst h
        exact Or.inr (Or.inr (Or.inl (by decide)))
      | succ n =>
        simp [stepOne, stepTask] at h
  · cases ch with
    | main =>
      simp [stepOne, mainStep] at h
    | task i =>
      cases i with
      | zero =>
        simp only [stepOne, stepTask, List.getElem?_cons_zero] at h
        injection h with h
        subst h
        exact Or.inr (Or.inr (Or.inr (by decide)))
      | succ n =>
        simp [stepOne, stepTask] at h
  · cases ch with
    | main =>
      simp [stepOne, mainStep] at h
    | task i =>
      cases i with
      | zero =>
        simp only [stepOne, stepTask, List.getElem?_cons_zero] at h
        simp at h
      | succ n =>
        simp [stepOne, stepTask] at h

lemma errReach_run (sched : List Choice) :
    ErrReach (run gErr sched (initConfig [])) :=
  run_preserves gErr ErrReach (fun c ch c2 hc h => errReach_step c c2 ch hc h)
    sched (initConfig []) (Or.inl rfl)

/-- Claim C2 (what the code actually does): when the gateway's list call
fails, the page goroutine blocks forever on the `errors <- err` send into
the fresh unbuffered channel no one can ever receive from, so under every
schedule `SaveAllStars` never gets page 1's response, never returns, and
saves nothing — the error is absorbed, not reported to any caller.  The
last conjunct is the blocked send itself: a goroutine stuck at that send
never takes another step under any gateway. -/
theorem saveStarredPage_error_never_reported (sched : List Choice) :
    ((run gErr sched (initConfig [])).main = MainSt.start
      ∨ (run gErr sched (initConfig [])).main = MainSt.awaitResp)
    ∧ (run gErr sched (initConfig [])).db = []
    ∧ (∀ lp, (run gErr sched (initConfig [])).main ≠ MainSt.returned lp)
    ∧ (∀ (g : Gateway) (c : Config) (i p : Nat) (e : String),
        c.tasks[i]? = some (Task.pageStuck p e) → stepTask g c i = none) := by
  have hr := errReach_run sched
  refine ⟨?_, ?_, ?_, ?_⟩
  · rcases hr with h | h | h | h <;> (rw [h]; simp [initConfig])
  · rcases hr with h | h | h | h <;> (rw [h]; try rfl)
  · intro lp
    rcases hr with h | h | h | h <;> (rw [h]; simp [initConfig])
  · intro g c i p e hti
    unfold stepTask
    rw [hti]

end StarManager
